import Mathlib

/-!
Verification of the two extraction scripts of the repository
(`tools/make-shorthand-map.py` and `tools/make-symbol-map.py`).

Each script fetches a documentation page, parses it, extracts attributes from
the list items of `ul.symbol-grid` elements, and prints formatted lines.
We embed the post-parse part of each script: the input is the parsed page,
modelled as the list of its `symbol-grid` unordered lists in document order,
each given by the list of its `li` children in document order; every `li` is
modelled by the attributes the scripts read.  The network fetch and the HTML
parser are outside the embedding (the parser is deterministic, so
byte-identical markup yields the same parsed page).

Python exceptions are modelled by an error type; a script run returns the
list of lines printed to standard output together with the error that
aborted it, if any (lines printed before the abort are kept, matching
Python's per-item `print`).
-/

/-- The failure modes of the scripts, mirroring the Python exceptions:
`IndexError` from `ul_list[1]`, the `AttributeError` raised by
`ul.find_all` when `soup.find` returned `None`, `KeyError` from
`li[attr]` on a missing attribute, and `ValueError` from `int(...)`. -/
inductive PyError where
  | indexError : PyError
  | attributeError : PyError
  | keyError : String → PyError
  | valueError : PyError
deriving DecidableEq, Repr

/-- A parsed `<li>` element of a `symbol-grid` list, reduced to the four
attributes the scripts read.  A `none` field is an absent attribute. -/
structure LItem where
  attrId : Option String := none
  dataLatexName : Option String := none
  dataCodepoint : Option String := none
  dataMathShorthand : Option String := none
deriving DecidableEq, Repr

/-- A parsed page: its `ul.symbol-grid` elements in document order, each as
the list of its `li` children in document order. -/
abbrev Page := List (List LItem)

/-- Whitespace stripped by Python `int(str)` before parsing. -/
def isPyIntSpace (c : Char) : Bool :=
  c = ' ' || c = '\t' || c = '\n' || c = '\r' || c = '\x0b' || c = '\x0c'

/-- Digit-sequence part of Python `int(str)`: decimal digits, with single
underscores allowed between digits only.  The first character must already
be known to be a digit (checked by the caller). -/
def pyDigitsAux : List Char → Nat → Option Nat
  | [], acc => some acc
  | c :: rest, acc =>
    if c.isDigit then pyDigitsAux rest (acc * 10 + (c.toNat - 48))
    else if c = '_' then
      match rest with
      | [] => none
      | d :: _ => if d.isDigit then pyDigitsAux rest acc else none
    else none

/-- Nonempty digit sequence starting with a digit. -/
def pyDigits : List Char → Option Nat
  | [] => none
  | c :: rest => if c.isDigit then pyDigitsAux (c :: rest) 0 else none

/-- Model of Python `int(s)` for `str` input: strip surrounding whitespace,
accept an optional sign followed by a nonempty digit sequence (underscores
allowed between digits); `none` models a raised `ValueError`. -/
def pyInt (s : String) : Option Int :=
  let cs := ((s.data.dropWhile isPyIntSpace).reverse.dropWhile isPyIntSpace).reverse
  match cs with
  | [] => none
  | c :: rest =>
    if c = '+' then (pyDigits rest).map Int.ofNat
    else if c = '-' then (pyDigits rest).map (fun n => -(n : Int))
    else (pyDigits cs).map Int.ofNat

/-- Model of Python `html.unescape` restricted to the named character
references occurring in the scraped attributes (`lt`, `gt`, `amp`, `quot`,
`apos`); as in HTML5, `lt`, `gt`, `amp` and `quot` are also recognised
without the trailing semicolon. -/
def unescapeChars : List Char → List Char
  | '&' :: 'g' :: 't' :: ';' :: rest => '>' :: unescapeChars rest
  | '&' :: 'l' :: 't' :: ';' :: rest => '<' :: unescapeChars rest
  | '&' :: 'a' :: 'm' :: 'p' :: ';' :: rest => '&' :: unescapeChars rest
  | '&' :: 'q' :: 'u' :: 'o' :: 't' :: ';' :: rest => Char.ofNat 34 :: unescapeChars rest
  | '&' :: 'a' :: 'p' :: 'o' :: 's' :: ';' :: rest => Char.ofNat 39 :: unescapeChars rest
  | '&' :: 'g' :: 't' :: rest => '>' :: unescapeChars rest
  | '&' :: 'l' :: 't' :: rest => '<' :: unescapeChars rest
  | '&' :: 'a' :: 'm' :: 'p' :: rest => '&' :: unescapeChars rest
  | '&' :: 'q' :: 'u' :: 'o' :: 't' :: rest => Char.ofNat 34 :: unescapeChars rest
  | c :: rest => c :: unescapeChars rest
  | [] => []

/-- Lifting of `unescapeChars` to strings, i.e. `html.unescape`. -/
def htmlUnescape (s : String) : String :=
  String.mk (unescapeChars s.data)

/-- The single-quote character, written by code point to build the quoted
output fields. -/
def sQuote : String :=
  String.mk [Char.ofNat 39]

/-! The shorthand extractor (`tools/make-shorthand-map.py`) -/

/-- The line printed for one item of the math-shorthand grid:
`['<typst>', '<shorthand>'],` (no indentation). -/
def fmtShorthandLine (typst shorthand : String) : String :=
  "[" ++ sQuote ++ typst ++ sQuote ++ ", " ++ sQuote ++ shorthand ++ sQuote ++ "],"

/-- One iteration of the shorthand loop body:
`typst = li['id'][7:]`, `shorthand = html.unescape(li['data-math-shorthand'])`,
then the printed line.  `li[attr]` on an absent attribute raises `KeyError`. -/
def processShorthandItem (li : LItem) : Except PyError String :=
  match li.attrId with
  | none => .error (.keyError "id")
  | some idv =>
    match li.dataMathShorthand with
    | none => .error (.keyError "data-math-shorthand")
    | some sh => .ok (fmtShorthandLine (idv.drop 7) (htmlUnescape sh))

/-- Loop `for li in li_list`: each successful item prints its line
immediately; the first failing item aborts, keeping the lines already
printed. -/
def shorthandLoop : List LItem → List String × Option PyError
  | [] => ([], none)
  | li :: rest =>
    match processShorthandItem li with
    | .error e => ([], some e)
    | .ok line =>
      let r := shorthandLoop rest
      (line :: r.1, r.2)

/-- The whole script after parsing: `ul_list = soup.find_all('ul',
class_='symbol-grid')`, `ul_shorthands_math = ul_list[1]` (raising
`IndexError` when fewer than two grids exist), then the item loop. -/
def runShorthandPage (grids : Page) : List String × Option PyError :=
  match grids[1]? with
  | none => ([], some .indexError)
  | some ul => shorthandLoop ul

/-! The symbol/LaTeX extractor (`tools/make-symbol-map.py`) -/

/-- One iteration of the symbol loop body, in source order:
`latex = li.get('data-latex-name', None)` (never raises),
`typst = li['id'][7:]` (`KeyError` when absent),
`unicode = int(li['data-codepoint'])` (`KeyError` when absent, `ValueError`
when not a valid integer string; the value is bound but unused), then
`if latex is not None: if latex not in symbol_map: symbol_map[latex] = typst`.
The dict is modelled as an association list in insertion order. -/
def processSymbolItem (symbol_map : List (String × String)) (li : LItem) :
    Except PyError (List (String × String)) :=
  match li.attrId with
  | none => .error (.keyError "id")
  | some idv =>
    match li.dataCodepoint with
    | none => .error (.keyError "data-codepoint")
    | some cp =>
      match pyInt cp with
      | none => .error .valueError
      | some _ =>
        match li.dataLatexName with
        | none => .ok symbol_map
        | some latex =>
          match symbol_map.lookup latex with
          | some _ => .ok symbol_map
          | none => .ok (symbol_map ++ [(latex, idv.drop 7)])

/-- Loop `for li in li_list` accumulating `symbol_map`. -/
def buildSymbolMap : List LItem → List (String × String) →
    Except PyError (List (String × String))
  | [], m => .ok m
  | li :: rest, m =>
    match processSymbolItem m li with
    | .error e => .error e
    | .ok m2 => buildSymbolMap rest m2

/-- The comparison under `sorted(..., key=str.lower)`: case-insensitive
string order. -/
def strLowerLe (a b : String) : Bool :=
  decide (a.toLower ≤ b.toLower)

/-- Stable insertion of a key into an already sorted list: the new element
goes before the first element it compares `≤` to, so elements comparing
equal keep their original relative order. -/
def orderedInsertLower (x : String) : List String → List String
  | [] => [x]
  | y :: ys => if strLowerLe x y then x :: y :: ys else y :: orderedInsertLower x ys

/-- Stable sort by `strLowerLe`.  Python `sorted` is a stable sort, and a
stable sort with respect to a fixed total preorder has a unique result, so
this insertion sort computes exactly the list Python prints. -/
def sortKeyLower : List String → List String
  | [] => []
  | x :: xs => orderedInsertLower x (sortKeyLower xs)

/-- Model of `sorted(list(symbol_map.keys()), key=str.lower)`. -/
def sortedSymbolKeys (m : List (String × String)) : List String :=
  sortKeyLower (m.map Prod.fst)

/-- Model of `[(key, symbol_map[key]) for key in sorted_keys]`; the keys all come
from the map, so the `getD` default is never used. -/
def sortedSymbolMap (m : List (String × String)) : List (String × String) :=
  (sortedSymbolKeys m).map (fun k => (k, (m.lookup k).getD ""))

/-- The line printed for one mapping entry:
four spaces of indentation, then `['<latex_name_without_backslash>',
'<typst>'],`; `latex[1:]` drops the first character (the backslash). -/
def fmtSymbolLine (latex typst : String) : String :=
  "    [" ++ sQuote ++ latex.drop 1 ++ sQuote ++ ", " ++ sQuote ++ typst ++ sQuote ++ "],"

/-- The final print loop over the sorted pairs. -/
def symbolLines (m : List (String × String)) : List String :=
  (sortedSymbolMap m).map (fun p => fmtSymbolLine p.1 p.2)

/-- The whole script after parsing: `ul = soup.find('ul',
class_='symbol-grid')` (the first grid, or `None`), `ul.find_all('li')`
(raising `AttributeError` on `None`), the accumulation loop starting from
the empty dict, then sorting and printing.  All printing happens after the
loop, so a failing run prints nothing. -/
def runSymbolPage (grids : Page) : List String × Option PyError :=
  match grids.head? with
  | none => ([], some .attributeError)
  | some ul =>
    match buildSymbolMap ul [] with
    | .error e => ([], some e)
    | .ok m => (symbolLines m, none)

/-! Helper functions and lemmas -/

/-- The identifier a list item contributes: its `id` attribute with the
7-character prefix removed.  The `getD` default only matters for items that
would already have raised `KeyError`. -/
def idOf (li : LItem) : String :=
  (li.attrId.getD "").drop 7

/-- The line the shorthand script prints for a (well-formed) item. -/
def shorthandLineOf (li : LItem) : String :=
  fmtShorthandLine (idOf li) (htmlUnescape (li.dataMathShorthand.getD ""))

/-- Replacing only the `data-codepoint` attribute of an item. -/
def setCodepoint (li : LItem) (c : String) : LItem :=
  ⟨li.attrId, li.dataLatexName, some c, li.dataMathShorthand⟩

theorem strLowerLe_total (a b : String) :
    strLowerLe a b = true ∨ strLowerLe b a = true := by
  simp only [strLowerLe, decide_eq_true_eq]
  exact le_total _ _

theorem strLowerLe_trans {a b c : String} (h₁ : strLowerLe a b = true)
    (h₂ : strLowerLe b c = true) : strLowerLe a c = true := by
  simp only [strLowerLe, decide_eq_true_eq] at h₁ h₂ ⊢
  exact le_trans h₁ h₂

theorem orderedInsertLower_perm (x : String) (l : List String) :
    List.Perm (orderedInsertLower x l) (x :: l) := by
  induction l with
  | nil => exact List.Perm.refl _
  | cons y ys ih =>
    simp only [orderedInsertLower]
    split
    · exact List.Perm.refl _
    · exact (ih.cons y).trans (List.Perm.swap x y ys)

theorem sortKeyLower_perm (l : List String) : List.Perm (sortKeyLower l) l := by
  induction l with
  | nil => exact List.Perm.refl _
  | cons x xs ih =>
    exact (orderedInsertLower_perm x (sortKeyLower xs)).trans (ih.cons x)

theorem pairwise_orderedInsertLower (x : String) (l : List String)
    (h : l.Pairwise (fun a b => strLowerLe a b = true)) :
    (orderedInsertLower x l).Pairwise (fun a b => strLowerLe a b = true) := by
  induction l with
  | nil => simp [orderedInsertLower]
  | cons y ys ih =>
    rcases List.pairwise_cons.mp h with ⟨hy, hys⟩
    simp only [orderedInsertLower]
    split
    next hxy =>
      refine List.pairwise_cons.mpr ⟨?_, h⟩
      intro b hb
      rcases List.mem_cons.mp hb with rfl | hb'
      · exact hxy
      · exact strLowerLe_trans hxy (hy _ hb')
    next hxy =>
      have hyx : strLowerLe y x = true := by
        rcases strLowerLe_total x y with h' | h'
        · exact absurd h' hxy
        · exact h'
      refine List.pairwise_cons.mpr ⟨?_, ih hys⟩
      intro b hb
      have hbm : b = x ∨ b ∈ ys := by
        simpa using (orderedInsertLower_perm x ys).mem_iff.mp hb
      rcases hbm with rfl | hb'
      · exact hyx
      · exact hy _ hb'

theorem pairwise_sortKeyLower (l : List String) :
    (sortKeyLower l).Pairwise (fun a b => strLowerLe a b = true) := by
  induction l with
  | nil => simp [sortKeyLower]
  | cons x xs ih => exact pairwise_orderedInsertLower x _ ih

theorem buildSymbolMap_append (l₁ l₂ : List LItem) (m : List (String × String)) :
    buildSymbolMap (l₁ ++ l₂) m =
      (buildSymbolMap l₁ m).bind (fun m2 => buildSymbolMap l₂ m2) := by
  induction l₁ generalizing m with
  | nil => rfl
  | cons li rest ih =>
    simp only [List.cons_append, buildSymbolMap]
    cases processSymbolItem m li with
    | error e => rfl
    | ok m2 => exact ih m2

theorem buildSymbolMap_ok_append {l₁ : List LItem} {m m2 : List (String × String)}
    (h : buildSymbolMap l₁ m = .ok m2) (l₂ : List LItem) :
    buildSymbolMap (l₁ ++ l₂) m = buildSymbolMap l₂ m2 := by
  rw [buildSymbolMap_append, h]
  rfl

/-- Once a key is present in the accumulating map, later items never change
its value: the first occurrence wins. -/
theorem buildSymbolMap_persists {lis : List LItem} {m m' : List (String × String)}
    (h : buildSymbolMap lis m = .ok m') {lx : String} {v : String}
    (hv : m.lookup lx = some v) : m'.lookup lx = some v := by
  induction lis generalizing m with
  | nil =>
    simp only [buildSymbolMap, Except.ok.injEq] at h
    exact h ▸ hv
  | cons li rest ih =>
    simp only [buildSymbolMap] at h
    cases hp : processSymbolItem m li with
    | error e => rw [hp] at h; exact absurd h (by simp)
    | ok m2 =>
      rw [hp] at h
      refine ih h ?_
      -- the step either keeps the map or appends a fresh key
      cases hid : li.attrId with
      | none => simp [processSymbolItem, hid] at hp
      | some idv =>
        cases hcp : li.dataCodepoint with
        | none => simp [processSymbolItem, hid, hcp] at hp
        | some cp =>
          cases hpy : pyInt cp with
          | none => simp [processSymbolItem, hid, hcp, hpy] at hp
          | some n =>
            cases hlx : li.dataLatexName with
            | none =>
              simp only [processSymbolItem, hid, hcp, hpy, hlx,
                Except.ok.injEq] at hp
              exact hp ▸ hv
            | some la =>
              cases hlk : m.lookup la with
              | some w =>
                simp only [processSymbolItem, hid, hcp, hpy, hlx, hlk,
                  Except.ok.injEq] at hp
                exact hp ▸ hv
              | none =>
                simp only [processSymbolItem, hid, hcp, hpy, hlx, hlk,
                  Except.ok.injEq] at hp
                rw [← hp, List.lookup_append, hv]
                rfl

theorem lookup_none_not_mem_keys {m : List (String × String)} {k : String}
    (h : m.lookup k = none) : k ∉ m.map Prod.fst := by
  intro hk
  rcases List.mem_map.mp hk with ⟨p, hp, hpk⟩
  have hne := List.lookup_eq_none_iff.mp h p hp
  simp [← hpk] at hne

theorem lookup_some_mem_keys {m : List (String × String)} {k v : String}
    (h : m.lookup k = some v) : k ∈ m.map Prod.fst := by
  have hs : (m.lookup k).isSome := by simp [h]
  rcases List.lookup_isSome_iff.mp hs with ⟨p, hp, hk⟩
  exact List.mem_map.mpr ⟨p, hp, (eq_of_beq hk).symm⟩

/-- First occurrence wins: starting from a map without the key, the final
map binds the key to the identifier of the first item carrying that
latex name. -/
theorem buildSymbolMap_lookup_first {lis : List LItem}
    {m m' : List (String × String)} {lx : String} {li₀ : LItem}
    (h : buildSymbolMap lis m = .ok m')
    (hfind : lis.find? (fun li => li.dataLatexName == some lx) = some li₀)
    (hnone : m.lookup lx = none) :
    m'.lookup lx = some (idOf li₀) := by
  induction lis generalizing m with
  | nil => simp at hfind
  | cons li rest ih =>
    simp only [buildSymbolMap] at h
    cases hp : processSymbolItem m li with
    | error e => rw [hp] at h; exact absurd h (by simp)
    | ok m2 =>
      rw [hp] at h
      cases hpred : (li.dataLatexName == some lx) with
      | true =>
        have hfind2 : li = li₀ := by
          have := List.find?_cons_of_pos (p := fun li => li.dataLatexName == some lx) rest hpred
          rw [this, Option.some.injEq] at hfind
          exact hfind
        subst hfind2
        have hlx : li.dataLatexName = some lx := eq_of_beq hpred
        cases hid : li.attrId with
        | none => simp [processSymbolItem, hid] at hp
        | some idv =>
          cases hcp : li.dataCodepoint with
          | none => simp [processSymbolItem, hid, hcp] at hp
          | some cp =>
            cases hpy : pyInt cp with
            | none => simp [processSymbolItem, hid, hcp, hpy] at hp
            | some n =>
              simp only [processSymbolItem, hid, hcp, hpy, hlx, hnone,
                Except.ok.injEq] at hp
              have hm2 : m2.lookup lx = some (idv.drop 7) := by
                rw [← hp, List.lookup_append, hnone]
                simp
              have := buildSymbolMap_persists h hm2
              simpa [idOf, hid] using this
      | false =>
        have hfneg := List.find?_cons_of_neg (p := fun li => li.dataLatexName == some lx) (a := li) rest (by simp [hpred])
        rw [hfneg] at hfind
        have hm2 : m2.lookup lx = none := by
          cases hid : li.attrId with
          | none => simp [processSymbolItem, hid] at hp
          | some idv =>
            cases hcp : li.dataCodepoint with
            | none => simp [processSymbolItem, hid, hcp] at hp
            | some cp =>
              cases hpy : pyInt cp with
              | none => simp [processSymbolItem, hid, hcp, hpy] at hp
              | some n =>
                cases hlx : li.dataLatexName with
                | none =>
                  simp only [processSymbolItem, hid, hcp, hpy, hlx,
                    Except.ok.injEq] at hp
                  exact hp ▸ hnone
                | some la =>
                  have hla : ¬ la = lx := by
                    rw [hlx] at hpred
                    simpa using hpred
                  cases hlk : m.lookup la with
                  | some w =>
                    simp only [processSymbolItem, hid, hcp, hpy, hlx, hlk,
                      Except.ok.injEq] at hp
                    exact hp ▸ hnone
                  | none =>
                    simp only [processSymbolItem, hid, hcp, hpy, hlx, hlk,
                      Except.ok.injEq] at hp
                    have hbe : (lx == la) = false :=
                      beq_eq_false_iff_ne.mpr (Ne.symm hla)
                    rw [← hp, List.lookup_append, hnone]
                    simp [List.lookup_cons, hbe]
        exact ih h hfind hm2

/-- The keys of the accumulated map stay distinct: a key is only appended
when it is not yet bound. -/
theorem buildSymbolMap_keys_nodup {lis : List LItem}
    {m m' : List (String × String)}
    (h : buildSymbolMap lis m = .ok m') (hm : (m.map Prod.fst).Nodup) :
    (m'.map Prod.fst).Nodup := by
  induction lis generalizing m with
  | nil =>
    simp only [buildSymbolMap, Except.ok.injEq] at h
    exact h ▸ hm
  | cons li rest ih =>
    simp only [buildSymbolMap] at h
    cases hp : processSymbolItem m li with
    | error e => rw [hp] at h; exact absurd h (by simp)
    | ok m2 =>
      rw [hp] at h
      refine ih h ?_
      cases hid : li.attrId with
      | none => simp [processSymbolItem, hid] at hp
      | some idv =>
        cases hcp : li.dataCodepoint with
        | none => simp [processSymbolItem, hid, hcp] at hp
        | some cp =>
          cases hpy : pyInt cp with
          | none => simp [processSymbolItem, hid, hcp, hpy] at hp
          | some n =>
            cases hlx : li.dataLatexName with
            | none =>
              simp only [processSymbolItem, hid, hcp, hpy, hlx,
                Except.ok.injEq] at hp
              exact hp ▸ hm
            | some la =>
              cases hlk : m.lookup la with
              | some w =>
                simp only [processSymbolItem, hid, hcp, hpy, hlx, hlk,
                  Except.ok.injEq] at hp
                exact hp ▸ hm
              | none =>
                have hnm : la ∉ m.map Prod.fst := lookup_none_not_mem_keys hlk
                simp only [processSymbolItem, hid, hcp, hpy, hlx, hlk,
                  Except.ok.injEq] at hp
                rw [← hp]
                simp only [List.map_append, List.map_cons, List.map_nil]
                exact hm.append (List.nodup_singleton _)
                  (fun b hb hb' => by
                    simp only [List.mem_singleton] at hb'
                    exact hnm (hb' ▸ hb))

/-- A run of the shorthand loop that finishes without error prints exactly
one line per item, in document order. -/
theorem shorthandLoop_ok_map {ul : List LItem} {lines : List String}
    (h : shorthandLoop ul = (lines, none)) :
    lines = ul.map shorthandLineOf := by
  induction ul generalizing lines with
  | nil =>
    simp only [shorthandLoop, Prod.mk.injEq] at h
    simp [h.1.symm]
  | cons li rest ih =>
    simp only [shorthandLoop] at h
    cases hp : processShorthandItem li with
    | error e => rw [hp] at h; simp at h
    | ok line =>
      rw [hp] at h
      simp only [Prod.mk.injEq] at h
      obtain ⟨hl, he⟩ := h
      have hrest : shorthandLoop rest = ((shorthandLoop rest).1, none) := by
        rw [← he]
      have hline : line = shorthandLineOf li := by
        cases hid : li.attrId with
        | none => simp [processShorthandItem, hid] at hp
        | some idv =>
          cases hsh : li.dataMathShorthand with
          | none => simp [processShorthandItem, hid, hsh] at hp
          | some sh =>
            simp only [processShorthandItem, hid, hsh, Except.ok.injEq] at hp
            simp [← hp, shorthandLineOf, idOf, hid, hsh]
      rw [← hl, hline, ih hrest, List.map_cons]

/-- Splitting the shorthand loop after an error-free prefix: the lines of
the prefix stay printed and the rest of the loop continues after them. -/
theorem shorthandLoop_append {l₁ l₂ : List LItem} {pl : List String}
    (h : shorthandLoop l₁ = (pl, none)) :
    shorthandLoop (l₁ ++ l₂) =
      (pl ++ (shorthandLoop l₂).1, (shorthandLoop l₂).2) := by
  induction l₁ generalizing pl with
  | nil =>
    simp only [shorthandLoop, Prod.mk.injEq] at h
    simp [← h.1]
  | cons li rest ih =>
    simp only [shorthandLoop] at h ⊢
    cases hp : processShorthandItem li with
    | error e => rw [hp] at h; simp at h
    | ok line =>
      rw [hp] at h
      simp only [Prod.mk.injEq] at h
      obtain ⟨hl, he⟩ := h
      have hrest : shorthandLoop rest = ((shorthandLoop rest).1, none) := by
        rw [← he]
      show (line :: (shorthandLoop (rest ++ l₂)).1,
          (shorthandLoop (rest ++ l₂)).2) =
        (pl ++ (shorthandLoop l₂).1, (shorthandLoop l₂).2)
      rw [ih hrest]
      simp [← hl]

/-- An item with a well-formed `id` and codepoint but no latex name leaves
the accumulating map untouched. -/
theorem processSymbolItem_skip {li : LItem} {idv cp : String} {n : Int}
    (hlx : li.dataLatexName = none) (hid : li.attrId = some idv)
    (hcp : li.dataCodepoint = some cp) (hpy : pyInt cp = some n)
    (m : List (String × String)) :
    processSymbolItem m li = .ok m := by
  simp [processSymbolItem, hid, hcp, hpy, hlx]

/-- Removing a well-formed latex-free item from the item list does not
change the result of the accumulation loop. -/
theorem buildSymbolMap_skip {li : LItem} {idv cp : String} {n : Int}
    (hlx : li.dataLatexName = none) (hid : li.attrId = some idv)
    (hcp : li.dataCodepoint = some cp) (hpy : pyInt cp = some n)
    (l₁ l₂ : List LItem) (m : List (String × String)) :
    buildSymbolMap (l₁ ++ li :: l₂) m = buildSymbolMap (l₁ ++ l₂) m := by
  rw [buildSymbolMap_append, buildSymbolMap_append]
  cases buildSymbolMap l₁ m with
  | error e => rfl
  | ok m2 =>
    show buildSymbolMap (li :: l₂) m2 = buildSymbolMap l₂ m2
    simp only [buildSymbolMap, processSymbolItem_skip hlx hid hcp hpy]

/-- Only the validity of the codepoint string matters to the loop body,
never its value. -/
theorem processSymbolItem_codepoint_irrelevant {c c' : String}
    (hc : (pyInt c).isSome) (hc' : (pyInt c').isSome)
    (m : List (String × String)) (li : LItem) :
    processSymbolItem m (setCodepoint li c) = processSymbolItem m (setCodepoint li c') := by
  rcases Option.isSome_iff_exists.mp hc with ⟨v, hv⟩
  rcases Option.isSome_iff_exists.mp hc' with ⟨v', hv'⟩
  cases hid : li.attrId with
  | none => simp [processSymbolItem, setCodepoint, hid]
  | some idv => simp [processSymbolItem, setCodepoint, hid, hv, hv']

/-- Changing one item's codepoint between two valid integer strings does
not change the accumulation result. -/
theorem buildSymbolMap_codepoint_irrelevant {c c' : String}
    (hc : (pyInt c).isSome) (hc' : (pyInt c').isSome)
    (l₁ l₂ : List LItem) (li : LItem) (m : List (String × String)) :
    buildSymbolMap (l₁ ++ setCodepoint li c :: l₂) m =
      buildSymbolMap (l₁ ++ setCodepoint li c' :: l₂) m := by
  rw [buildSymbolMap_append, buildSymbolMap_append]
  cases buildSymbolMap l₁ m with
  | error e => rfl
  | ok m2 =>
    show buildSymbolMap (setCodepoint li c :: l₂) m2 =
      buildSymbolMap (setCodepoint li c' :: l₂) m2
    simp only [buildSymbolMap,
      processSymbolItem_codepoint_irrelevant hc hc' m2 li]

/-! Concrete example inputs from the specification -/

/-- Item `id="symbol-equal"` with `data-latex-name="\equiv"`; the
codepoint of U+2261 is added, as on the real page, since the script reads
it on every item. -/
def exEqualItem : LItem :=
  ⟨some "symbol-equal", some "\\equiv", some "8801", none⟩

/-- Item `id="symbol-equiv.triple"` with the same latex name. -/
def exEquivTripleItem : LItem :=
  ⟨some "symbol-equiv.triple", some "\\equiv", some "8801", none⟩

/-- The two-item symbol page of the end-to-end example of section 4.2. -/
def exSymbolPage : Page :=
  [[exEqualItem, exEquivTripleItem]]

/-- Item `id="symbol-arrow.r"` with `data-math-shorthand="-&gt;"`. -/
def exArrowItem : LItem :=
  ⟨some "symbol-arrow.r", none, none, some "-&gt;"⟩

/-- The shorthand page of the end-to-end example of section 4.1: the first
grid (text shorthands) is ignored by the script, the second holds the
example item. -/
def exShorthandPage : Page :=
  [[], [exArrowItem]]

/-! Claims -/

/-- C1 (counterexample): on the example input the output is NOT the
unindented line stated by the claim — the script prints each line with a
four-space indent. -/
theorem symbol_example_line_counterexample :
    runSymbolPage exSymbolPage ≠
      (["[" ++ sQuote ++ "equiv" ++ sQuote ++ ", " ++ sQuote ++ "equal" ++
        sQuote ++ "],"], none) := by
  decide

/-- C1 (amended): every printed line of the symbol extractor is four spaces
followed by the bracketed pair, and on the example input the output is
exactly the one line with that indentation. -/
theorem symbol_output_line_format :
    (∀ grids : Page, ∀ l ∈ (runSymbolPage grids).1, ∃ a b : String,
        l = "    [" ++ sQuote ++ a ++ sQuote ++ ", " ++ sQuote ++ b ++
          sQuote ++ "],") ∧
    runSymbolPage exSymbolPage =
      (["    [" ++ sQuote ++ "equiv" ++ sQuote ++ ", " ++ sQuote ++
        "equal" ++ sQuote ++ "],"], none) := by
  constructor
  · intro grids l hl
    cases grids with
    | nil => simp [runSymbolPage] at hl
    | cons ul gs =>
      simp only [runSymbolPage, List.head?_cons] at hl
      cases hb : buildSymbolMap ul [] with
      | error e => rw [hb] at hl; simp at hl
      | ok m =>
        rw [hb] at hl
        simp only [symbolLines, List.mem_map] at hl
        obtain ⟨p, hp, hfmt⟩ := hl
        exact ⟨p.1.drop 1, p.2, by rw [← hfmt]; rfl⟩
  · decide

/-- C1 (witness): the format statement applied to the example page and its
printed line. -/
theorem symbol_output_line_format_witness :
    ∃ a b : String,
      "    [" ++ sQuote ++ "equiv" ++ sQuote ++ ", " ++ sQuote ++ "equal" ++
        sQuote ++ "]," =
      "    [" ++ sQuote ++ a ++ sQuote ++ ", " ++ sQuote ++ b ++
        sQuote ++ "]," :=
  symbol_output_line_format.1 exSymbolPage _ (by decide)

/-- C5: on the example page the sole output line is `['arrow.r', '->'],`,
and in general a processed item yields its id with the 7-character prefix
stripped together with the HTML-unescaped shorthand attribute. -/
theorem shorthand_example_arrow :
    runShorthandPage exShorthandPage =
      (["[" ++ sQuote ++ "arrow.r" ++ sQuote ++ ", " ++ sQuote ++ "->" ++
        sQuote ++ "],"], none) ∧
    (∀ (li : LItem) (idv sh : String), li.attrId = some idv →
      li.dataMathShorthand = some sh →
      processShorthandItem li =
        .ok (fmtShorthandLine (idv.drop 7) (htmlUnescape sh))) := by
  constructor
  · decide
  · intro li idv sh hid hsh
    simp [processShorthandItem, hid, hsh]

/-- C5 (witness): the general part applied to the example item. -/
theorem shorthand_example_arrow_witness :
    exArrowItem.attrId = some "symbol-arrow.r" ∧
    exArrowItem.dataMathShorthand = some "-&gt;" ∧
    processShorthandItem exArrowItem =
      .ok (fmtShorthandLine ("symbol-arrow.r".drop 7)
        (htmlUnescape "-&gt;")) :=
  ⟨rfl, rfl, shorthand_example_arrow.2 exArrowItem "symbol-arrow.r" "-&gt;" rfl rfl⟩

/-- C10: both extractors are deterministic functions of the parsed input
page — equal inputs give equal outputs. -/
theorem extractors_deterministic (p₁ p₂ : Page) (h : p₁ = p₂) :
    runShorthandPage p₁ = runShorthandPage p₂ ∧
    runSymbolPage p₁ = runSymbolPage p₂ := by
  subst h
  exact ⟨rfl, rfl⟩

/-- C10 (witness): determinism at the example page. -/
theorem extractors_deterministic_witness :
    exShorthandPage = exShorthandPage ∧
    runShorthandPage exShorthandPage = runShorthandPage exShorthandPage ∧
    runSymbolPage exShorthandPage = runSymbolPage exShorthandPage :=
  ⟨rfl, (extractors_deterministic exShorthandPage exShorthandPage rfl).1,
    (extractors_deterministic exShorthandPage exShorthandPage rfl).2⟩

theorem map_fst_sortedSymbolMap (m : List (String × String)) :
    (sortedSymbolMap m).map Prod.fst = sortedSymbolKeys m := by
  simp [sortedSymbolMap, List.map_map, Function.comp_def]

/-- C2: when a latex name occurs on more than one list item, exactly one
printed pair carries it, bound to the identifier of the first such item in
document order, and the printed lines are exactly the formatted sorted
pairs. -/
theorem symbol_dedup_first_wins (ul : List LItem) (gs : List (List LItem))
    (m : List (String × String)) (lx : String) (li₀ : LItem)
    (hb : buildSymbolMap ul [] = .ok m)
    (_hK : 2 ≤ ul.countP (fun li => li.dataLatexName == some lx))
    (hfind : ul.find? (fun li => li.dataLatexName == some lx) = some li₀) :
    (sortedSymbolMap m).countP (fun p => p.1 == lx) = 1 ∧
    (lx, idOf li₀) ∈ sortedSymbolMap m ∧
    runSymbolPage (ul :: gs) =
      ((sortedSymbolMap m).map (fun p => fmtSymbolLine p.1 p.2), none) := by
  have hlk : m.lookup lx = some (idOf li₀) :=
    buildSymbolMap_lookup_first hb hfind rfl
  have hmem : lx ∈ m.map Prod.fst := lookup_some_mem_keys hlk
  have hnodup : (m.map Prod.fst).Nodup :=
    buildSymbolMap_keys_nodup hb (by simp)
  have hperm := sortKeyLower_perm (m.map Prod.fst)
  refine ⟨?_, ?_, ?_⟩
  · rw [sortedSymbolMap, List.countP_map]
    show (sortedSymbolKeys m).countP (fun k => k == lx) = 1
    rw [sortedSymbolKeys]
    rw [List.Perm.countP_eq _ hperm]
    show (m.map Prod.fst).count lx = 1
    exact List.count_eq_one_of_mem hnodup hmem
  · have hkmem : lx ∈ sortedSymbolKeys m := by
      rw [sortedSymbolKeys]
      exact hperm.mem_iff.mpr hmem
    refine List.mem_map.mpr ⟨lx, hkmem, ?_⟩
    rw [hlk]
    rfl
  · simp [runSymbolPage, hb, symbolLines]

/-- C2 (witness): the dedup statement at the two-item example page, where
`\equiv` occurs twice and the retained identifier is `equal`. -/
theorem symbol_dedup_first_wins_witness :
    (buildSymbolMap [exEqualItem, exEquivTripleItem] [] =
        .ok [("\\equiv", "equal")] ∧
      2 ≤ [exEqualItem, exEquivTripleItem].countP
        (fun li => li.dataLatexName == some "\\equiv") ∧
      [exEqualItem, exEquivTripleItem].find?
        (fun li => li.dataLatexName == some "\\equiv") = some exEqualItem) ∧
    ((sortedSymbolMap [("\\equiv", "equal")]).countP
        (fun p => p.1 == "\\equiv") = 1 ∧
      ("\\equiv", idOf exEqualItem) ∈ sortedSymbolMap [("\\equiv", "equal")] ∧
      runSymbolPage ([exEqualItem, exEquivTripleItem] :: []) =
        ((sortedSymbolMap [("\\equiv", "equal")]).map
          (fun p => fmtSymbolLine p.1 p.2), none)) :=
  ⟨⟨rfl, by decide, by decide⟩,
    symbol_dedup_first_wins [exEqualItem, exEquivTripleItem] []
      [("\\equiv", "equal")] "\\equiv" exEqualItem
      rfl (by decide) (by decide)⟩

/-- C3: the printed pairs of the symbol extractor are sorted ascending by
latex name under case-insensitive comparison, and the printed lines are
exactly the formatted sorted pairs. -/
theorem symbol_output_sorted_ci (ul : List LItem) (gs : List (List LItem))
    (m : List (String × String)) (hb : buildSymbolMap ul [] = .ok m) :
    ((sortedSymbolMap m).map Prod.fst).Pairwise
      (fun a b => strLowerLe a b = true) ∧
    runSymbolPage (ul :: gs) =
      ((sortedSymbolMap m).map (fun p => fmtSymbolLine p.1 p.2), none) := by
  constructor
  · rw [map_fst_sortedSymbolMap]
    exact pairwise_sortKeyLower _
  · simp [runSymbolPage, hb, symbolLines]

/-- C3 (witness): the sort statement at the two-item example page. -/
theorem symbol_output_sorted_ci_witness :
    buildSymbolMap [exEqualItem, exEquivTripleItem] [] =
      .ok [("\\equiv", "equal")] ∧
    (((sortedSymbolMap [("\\equiv", "equal")]).map Prod.fst).Pairwise
      (fun a b => strLowerLe a b = true) ∧
    runSymbolPage ([exEqualItem, exEquivTripleItem] :: []) =
      ((sortedSymbolMap [("\\equiv", "equal")]).map
        (fun p => fmtSymbolLine p.1 p.2), none)) :=
  ⟨rfl,
    symbol_output_sorted_ci [exEqualItem, exEquivTripleItem] []
      [("\\equiv", "equal")] rfl⟩

/-- A latex-free but otherwise well-formed item, used as witness input. -/
def exNoLatexItem : LItem :=
  ⟨some "symbol-x", none, some "120", none⟩

/-- C4: a list item lacking `data-latex-name` (with its other attributes
well-formed) is skipped entirely: the run result is the same as without
the item, and the loop body never adds a mapping entry for it. -/
theorem symbol_item_without_latex_skipped (gs : List (List LItem))
    (l₁ l₂ : List LItem) (li : LItem) (idv cp : String) (n : Int)
    (hlx : li.dataLatexName = none) (hid : li.attrId = some idv)
    (hcp : li.dataCodepoint = some cp) (hpy : pyInt cp = some n) :
    runSymbolPage ((l₁ ++ li :: l₂) :: gs) =
      runSymbolPage ((l₁ ++ l₂) :: gs) ∧
    (∀ m : List (String × String), processSymbolItem m li = .ok m) := by
  constructor
  · simp only [runSymbolPage, List.head?_cons,
      buildSymbolMap_skip hlx hid hcp hpy]
  · intro m
    exact processSymbolItem_skip hlx hid hcp hpy m

/-- C4 (witness): the skip statement with a concrete latex-free item
between the two example items. -/
theorem symbol_item_without_latex_skipped_witness :
    (exNoLatexItem.dataLatexName = none ∧
      exNoLatexItem.attrId = some "symbol-x" ∧
      exNoLatexItem.dataCodepoint = some "120" ∧
      pyInt "120" = some 120) ∧
    (runSymbolPage ([exEqualItem, exNoLatexItem, exEquivTripleItem] :: []) =
      runSymbolPage ([exEqualItem, exEquivTripleItem] :: []) ∧
    processSymbolItem [] exNoLatexItem = .ok []) :=
  ⟨⟨rfl, rfl, rfl, by decide⟩,
    ⟨(symbol_item_without_latex_skipped [] [exEqualItem] [exEquivTripleItem]
        exNoLatexItem "symbol-x" "120" 120 rfl rfl rfl (by decide)).1,
      (symbol_item_without_latex_skipped [] [exEqualItem] [exEquivTripleItem]
        exNoLatexItem "symbol-x" "120" 120 rfl rfl rfl (by decide)).2 []⟩⟩

/-- C6: an error-free shorthand run prints exactly one line per list item
of the selected (second) grid, in document order, duplicates included —
the printed list is the item-wise map over the document-ordered items. -/
theorem shorthand_output_document_order (grids : Page) (ul : List LItem)
    (lines : List String) (hg : grids[1]? = some ul)
    (hloop : shorthandLoop ul = (lines, none)) :
    lines = ul.map shorthandLineOf ∧
    runShorthandPage grids = (lines, none) := by
  refine ⟨shorthandLoop_ok_map hloop, ?_⟩
  simp [runShorthandPage, hg, hloop]

/-- C6 (witness): the order statement on a page whose second grid holds
the same item twice — both lines appear, in page order. -/
theorem shorthand_output_document_order_witness :
    ([[], [exArrowItem, exArrowItem]] : Page)[1]? =
      some [exArrowItem, exArrowItem] ∧
    shorthandLoop [exArrowItem, exArrowItem] =
      ([fmtShorthandLine "arrow.r" "->", fmtShorthandLine "arrow.r" "->"],
        none) ∧
    ([fmtShorthandLine "arrow.r" "->", fmtShorthandLine "arrow.r" "->"] =
      [exArrowItem, exArrowItem].map shorthandLineOf ∧
    runShorthandPage [[], [exArrowItem, exArrowItem]] =
      ([fmtShorthandLine "arrow.r" "->", fmtShorthandLine "arrow.r" "->"],
        none)) :=
  ⟨rfl, rfl,
    shorthand_output_document_order [[], [exArrowItem, exArrowItem]]
      [exArrowItem, exArrowItem]
      [fmtShorthandLine "arrow.r" "->", fmtShorthandLine "arrow.r" "->"]
      rfl rfl⟩

/-- C7: the shorthand run aborts with `IndexError` when fewer than two
symbol-grid lists exist, and with `KeyError` when a processed item lacks
`id` or `data-math-shorthand`; on such an abort exactly the lines of the
error-free prefix have been printed. -/
theorem shorthand_error_conditions :
    (∀ grids : Page, grids.length < 2 →
      runShorthandPage grids = ([], some .indexError)) ∧
    (∀ (grids : Page) (ul l₁ l₂ : List LItem) (li : LItem)
      (pl : List String),
      grids[1]? = some ul → ul = l₁ ++ li :: l₂ →
      shorthandLoop l₁ = (pl, none) → li.attrId = none →
      runShorthandPage grids = (pl, some (.keyError "id"))) ∧
    (∀ (grids : Page) (ul l₁ l₂ : List LItem) (li : LItem)
      (pl : List String) (idv : String),
      grids[1]? = some ul → ul = l₁ ++ li :: l₂ →
      shorthandLoop l₁ = (pl, none) → li.attrId = some idv →
      li.dataMathShorthand = none →
      runShorthandPage grids = (pl, some (.keyError "data-math-shorthand"))) := by
  refine ⟨?_, ?_, ?_⟩
  · intro grids h
    have hg : grids[1]? = none := List.getElem?_eq_none (by omega)
    simp [runShorthandPage, hg]
  · intro grids ul l₁ l₂ li pl hg hul hpl hid
    subst hul
    simp only [runShorthandPage, hg]
    rw [shorthandLoop_append hpl]
    simp [shorthandLoop, processShorthandItem, hid]
  · intro grids ul l₁ l₂ li pl idv hg hul hpl hid hsh
    subst hul
    simp only [runShorthandPage, hg]
    rw [shorthandLoop_append hpl]
    simp [shorthandLoop, processShorthandItem, hid, hsh]

/-- An item with no attributes at all, used as witness input. -/
def exBareItem : LItem :=
  ⟨none, none, none, none⟩

/-- An item with an id but no shorthand attribute, used as witness input. -/
def exNoShorthandItem : LItem :=
  ⟨some "symbol-q", none, none, none⟩

/-- C7 (witness): the three error conditions at concrete pages; the
partial output keeps exactly the line of the leading well-formed item. -/
theorem shorthand_error_conditions_witness :
    (([[]] : Page).length < 2 ∧
      runShorthandPage [[]] = ([], some .indexError)) ∧
    (([[], [exArrowItem, exBareItem]] : Page)[1]? =
        some [exArrowItem, exBareItem] ∧
      shorthandLoop [exArrowItem] = ([fmtShorthandLine "arrow.r" "->"], none) ∧
      exBareItem.attrId = none ∧
      runShorthandPage [[], [exArrowItem, exBareItem]] =
        ([fmtShorthandLine "arrow.r" "->"], some (.keyError "id"))) ∧
    (([[], [exArrowItem, exNoShorthandItem]] : Page)[1]? =
        some [exArrowItem, exNoShorthandItem] ∧
      exNoShorthandItem.attrId = some "symbol-q" ∧
      exNoShorthandItem.dataMathShorthand = none ∧
      runShorthandPage [[], [exArrowItem, exNoShorthandItem]] =
        ([fmtShorthandLine "arrow.r" "->"],
          some (.keyError "data-math-shorthand"))) :=
  ⟨⟨by decide,
      shorthand_error_conditions.1 [[]] (by decide)⟩,
    ⟨rfl, rfl, rfl,
      shorthand_error_conditions.2.1 [[], [exArrowItem, exBareItem]]
        [exArrowItem, exBareItem] [exArrowItem] [] exBareItem
        [fmtShorthandLine "arrow.r" "->"] rfl rfl rfl rfl⟩,
    ⟨rfl, rfl, rfl,
      shorthand_error_conditions.2.2 [[], [exArrowItem, exNoShorthandItem]]
        [exArrowItem, exNoShorthandItem] [exArrowItem] [] exNoShorthandItem
        [fmtShorthandLine "arrow.r" "->"] "symbol-q" rfl rfl rfl rfl rfl⟩⟩

/-- An item whose codepoint attribute is present but not an integer
string, used as witness input. -/
def exBadCodepointItem : LItem :=
  ⟨some "symbol-bad", none, some "zz", none⟩

/-- C8: the symbol run aborts when no symbol-grid list exists (the Python
`AttributeError` on `None.find_all`, the spec's IndexError-equivalent),
aborts with `ValueError` when a processed item's codepoint is present but
not a valid integer string, and the parsed codepoint value never reaches
the printed output: any two valid codepoint strings give identical runs. -/
theorem symbol_error_conditions :
    runSymbolPage [] = ([], some .attributeError) ∧
    (∀ (gs : List (List LItem)) (l₁ l₂ : List LItem) (li : LItem)
      (m : List (String × String)) (c : String),
      buildSymbolMap l₁ [] = .ok m → li.attrId.isSome →
      li.dataCodepoint = some c → pyInt c = none →
      runSymbolPage ((l₁ ++ li :: l₂) :: gs) = ([], some .valueError)) ∧
    (∀ (gs : List (List LItem)) (l₁ l₂ : List LItem) (li : LItem)
      (c c' : String), (pyInt c).isSome → (pyInt c').isSome →
      runSymbolPage ((l₁ ++ setCodepoint li c :: l₂) :: gs) =
        runSymbolPage ((l₁ ++ setCodepoint li c' :: l₂) :: gs)) := by
  refine ⟨rfl, ?_, ?_⟩
  · intro gs l₁ l₂ li m c hb hid hcp hpy
    obtain ⟨idv, hidv⟩ := Option.isSome_iff_exists.mp hid
    simp only [runSymbolPage, List.head?_cons]
    rw [buildSymbolMap_ok_append hb]
    simp [buildSymbolMap, processSymbolItem, hidv, hcp, hpy]
  · intro gs l₁ l₂ li c c' hc hc'
    simp only [runSymbolPage, List.head?_cons,
      buildSymbolMap_codepoint_irrelevant hc hc' l₁ l₂ li []]

/-- C8 (witness): the error conditions at concrete pages. -/
theorem symbol_error_conditions_witness :
    (buildSymbolMap [exEqualItem] [] = .ok [("\\equiv", "equal")] ∧
      exBadCodepointItem.attrId.isSome ∧
      exBadCodepointItem.dataCodepoint = some "zz" ∧
      pyInt "zz" = none ∧
      runSymbolPage ([exEqualItem, exBadCodepointItem] :: []) =
        ([], some .valueError)) ∧
    ((pyInt "1").isSome ∧ (pyInt "2").isSome ∧
      runSymbolPage ([setCodepoint exEqualItem "1"] :: []) =
        runSymbolPage ([setCodepoint exEqualItem "2"] :: [])) :=
  ⟨⟨rfl, by decide, rfl, by decide,
      symbol_error_conditions.2.1 [] [exEqualItem] [] exBadCodepointItem
        [("\\equiv", "equal")] "zz" rfl (by decide) rfl (by decide)⟩,
    ⟨by decide, by decide,
      symbol_error_conditions.2.2 [] [] [] exEqualItem "1" "2"
        (by decide) (by decide)⟩⟩

/-- C9: the loop body reads `id` and reads and parses `data-codepoint`
before the latex-name presence check — the three failures occur for every
item, whatever its `data-latex-name` (in particular when it is absent),
and any such failure aborts the whole run with no printed lines. -/
theorem symbol_attrs_read_before_latex_check :
    (∀ (m : List (String × String)) (li : LItem), li.attrId = none →
      processSymbolItem m li = .error (.keyError "id")) ∧
    (∀ (m : List (String × String)) (li : LItem) (idv : String),
      li.attrId = some idv → li.dataCodepoint = none →
      processSymbolItem m li = .error (.keyError "data-codepoint")) ∧
    (∀ (m : List (String × String)) (li : LItem) (idv c : String),
      li.attrId = some idv → li.dataCodepoint = some c → pyInt c = none →
      processSymbolItem m li = .error .valueError) ∧
    (∀ (gs : List (List LItem)) (l₁ l₂ : List LItem) (li : LItem)
      (m : List (String × String)) (e : PyError),
      buildSymbolMap l₁ [] = .ok m → processSymbolItem m li = .error e →
      runSymbolPage ((l₁ ++ li :: l₂) :: gs) = ([], some e)) := by
  refine ⟨?_, ?_, ?_, ?_⟩
  · intro m li hid
    simp [processSymbolItem, hid]
  · intro m li idv hid hcp
    simp [processSymbolItem, hid, hcp]
  · intro m li idv c hid hcp hpy
    simp [processSymbolItem, hid, hcp, hpy]
  · intro gs l₁ l₂ li m e hb hp
    simp only [runSymbolPage, List.head?_cons]
    rw [buildSymbolMap_ok_append hb]
    simp [buildSymbolMap, hp]

/-- C9 (witness): the three failures on latex-free items, and the abort of
a whole run containing one such item after a well-formed prefix. -/
theorem symbol_attrs_read_before_latex_check_witness :
    (exBareItem.attrId = none ∧
      processSymbolItem [] exBareItem = .error (.keyError "id")) ∧
    (exNoShorthandItem.attrId = some "symbol-q" ∧
      exNoShorthandItem.dataCodepoint = none ∧
      processSymbolItem [] exNoShorthandItem =
        .error (.keyError "data-codepoint")) ∧
    (exBadCodepointItem.attrId = some "symbol-bad" ∧
      exBadCodepointItem.dataCodepoint = some "zz" ∧ pyInt "zz" = none ∧
      processSymbolItem [] exBadCodepointItem = .error .valueError) ∧
    (buildSymbolMap [exEqualItem] [] = .ok [("\\equiv", "equal")] ∧
      processSymbolItem [("\\equiv", "equal")] exBadCodepointItem =
        .error .valueError ∧
      runSymbolPage ([exEqualItem, exBadCodepointItem] :: []) =
        ([], some .valueError)) :=
  ⟨⟨rfl, symbol_attrs_read_before_latex_check.1 [] exBareItem rfl⟩,
    ⟨rfl, rfl, symbol_attrs_read_before_latex_check.2.1 []
      exNoShorthandItem "symbol-q" rfl rfl⟩,
    ⟨rfl, rfl, by decide, symbol_attrs_read_before_latex_check.2.2.1 []
      exBadCodepointItem "symbol-bad" "zz" rfl rfl (by decide)⟩,
    ⟨rfl, symbol_attrs_read_before_latex_check.2.2.1 [("\\equiv", "equal")]
        exBadCodepointItem "symbol-bad" "zz" rfl rfl (by decide),
      symbol_attrs_read_before_latex_check.2.2.2 [] [exEqualItem] []
        exBadCodepointItem [("\\equiv", "equal")] .valueError rfl
        (symbol_attrs_read_before_latex_check.2.2.1 [("\\equiv", "equal")]
          exBadCodepointItem "symbol-bad" "zz" rfl rfl (by decide))⟩⟩
